import Mathlib

/-!
Shallow embedding of the rule-based quiz grading engine
(src/phase-1/services/quiz_grading_service.py, class QuizGradingService).

Modelling conventions:
* Python strings are modelled as lists of characters (ASCII assumed for
  lower/strip/split); Python float arithmetic on the small point values and
  ratios is modelled as exact rational arithmetic, and Python round(x, 2)
  as round-half-to-even over the rationals.
* Python ints are modelled as unbounded integers.
* The database is modelled as the data the service queries: whether the quiz
  row exists, the ordered list of its questions, and the list of answer rows.
* Raising an exception is modelled as returning an error value: the
  fill-in-the-blank grader returns an Option (none when the token-overlap
  division would divide by zero), and the orchestrator returns Except.
-/

/-- Python str.strip and str.split whitespace (ASCII range). -/
def pyWhitespace (c : Char) : Bool :=
  c = ' ' || c = '\t' || c = '\n' || c = '\r' || c.toNat = 11 || c.toNat = 12

/-- Python str.lower on one ASCII character. -/
def pyLowerChar (c : Char) : Char :=
  if 'A' ≤ c && c ≤ 'Z' then Char.ofNat (c.toNat + 32) else c

/-- Python str.lower. -/
def pyLower (s : List Char) : List Char := s.map pyLowerChar

/-- Python str.strip with no arguments: drop leading and trailing whitespace. -/
def pyStrip (s : List Char) : List Char :=
  ((s.dropWhile pyWhitespace).reverse.dropWhile pyWhitespace).reverse

/-- Helper for pySplit: accumulates the current token (reversed). -/
def pySplitAux : List Char → List Char → List (List Char)
  | [], acc => if acc = [] then [] else [acc.reverse]
  | c :: rest, acc =>
    if pyWhitespace c then
      if acc = [] then pySplitAux rest [] else acc.reverse :: pySplitAux rest []
    else
      pySplitAux rest (c :: acc)

/-- Python str.split with no arguments: split on whitespace runs, no empty tokens. -/
def pySplit (s : List Char) : List (List Char) := pySplitAux s []

/-- The normalization the graders apply to both sides: lower() then strip(). -/
def normText (s : List Char) : List Char := pyStrip (pyLower s)

/-- Python substring containment (the in operator): a occurs contiguously in b. -/
def pyIn (a : List Char) : List Char → Bool
  | [] => a.isPrefixOf []
  | c :: rest => a.isPrefixOf (c :: rest) || pyIn a rest

/-- Python int(p * (num/den)): the exact rational num·p/den truncated toward
zero. Used for int(points_awarded * 0.8) and int(points_awarded * 0.7),
whose float products are modelled as exact rationals. -/
def pyIntMulFrac (p num den : ℤ) : ℤ := Int.tdiv (p * num) den

/-- Round-half-to-even of the rational a/b (b positive) to an integer, in
integer arithmetic so that the kernel can evaluate it. -/
def roundHalfEvenDiv (a b : ℤ) : ℤ :=
  if 2 * (a % b) < b then a / b
  else if b < 2 * (a % b) then a / b + 1
  else if (a / b) % 2 = 0 then a / b else a / b + 1

/-- Specification-side round-half-to-even of a rational to an integer, as
Python round does on the modelled exact values. -/
def roundHalfEvenQ (q : ℚ) : ℤ :=
  if q - ⌊q⌋ < 1/2 then ⌊q⌋
  else if 1/2 < q - ⌊q⌋ then ⌊q⌋ + 1
  else if ⌊q⌋ % 2 = 0 then ⌊q⌋ else ⌊q⌋ + 1

/-- Specification-side Python round(x, 2). -/
def round2 (q : ℚ) : ℚ := (roundHalfEvenQ (q * 100) : ℚ) / 100

/-- A row of the quiz_answers table (models.quiz.QuizAnswer). -/
structure QuizAnswer where
  question_id : ℕ
  answer_text : List Char
  is_correct : Bool
  points_awarded : ℤ
  deriving DecidableEq

/-- A row of the quiz_questions table (models.quiz.QuizQuestion);
question_type holds the QuestionType value string. -/
structure QuizQuestion where
  id : ℕ
  question_text : List Char
  question_type : List Char
  points : ℤ
  deriving DecidableEq

/-- One element of the user_answers list: a dict with optional question_id
and answer_text (defaulting to the empty string). -/
structure SubmittedAnswer where
  question_id : Option ℕ
  answer_text : List Char
  deriving DecidableEq

/-- One element of graded_results built by grade_quiz_submission. -/
structure QuestionResult where
  question_id : ℕ
  question_text : List Char
  user_answer : List Char
  is_correct : Bool
  points_awarded : ℤ
  points_possible : ℤ
  feedback : List Char
  question_type : List Char
  deriving DecidableEq, Inhabited

/-- _grade_mcq: one pass looking for exact normalized equality, then one pass
looking for a correct entry contained in the submitted text. -/
def _grade_mcq (user_answer : List Char) (correct_answers : List QuizAnswer) :
    Bool × ℤ × List Char :=
  let user_answer_lower := normText user_answer
  match correct_answers.find? (fun ca => normText ca.answer_text == user_answer_lower) with
  | some ca => (true, ca.points_awarded, ("Correct! Well done.").toList)
  | none =>
    match correct_answers.find? (fun ca => pyIn (normText ca.answer_text) user_answer_lower) with
    | some ca =>
      (true, ca.points_awarded,
        ("Partially correct. Consider reviewing the material for a complete answer.").toList)
    | none =>
      match correct_answers with
      | [] => (false, 0, ("Incorrect answer.").toList)
      | ca :: _ =>
        (false, 0, ("Incorrect. The correct answer was: ").toList ++ ca.answer_text)

/-- The literal list of accepted key-side spellings of true in _grade_true_false. -/
def tfTrueKey : List (List Char) := [("true").toList, ("yes").toList, ("correct").toList]

/-- The literal list of accepted user-side spellings of true in _grade_true_false. -/
def tfTrueUser : List (List Char) :=
  [("true").toList, ("yes").toList, ("correct").toList, ("t").toList, ("y").toList]

/-- The literal list of accepted key-side spellings of false in _grade_true_false. -/
def tfFalseKey : List (List Char) := [("false").toList, ("no").toList, ("incorrect").toList]

/-- The literal list of accepted user-side spellings of false in _grade_true_false. -/
def tfFalseUser : List (List Char) :=
  [("false").toList, ("no").toList, ("incorrect").toList, ("f").toList, ("n").toList]

/-- The matching condition of the loop body of _grade_true_false. -/
def tfMatches (user_answer_lower : List Char) (ca : QuizAnswer) : Bool :=
  let ctl := normText ca.answer_text
  (tfTrueKey.contains ctl && tfTrueUser.contains user_answer_lower) ||
  (tfFalseKey.contains ctl && tfFalseUser.contains user_answer_lower)

/-- _grade_true_false. -/
def _grade_true_false (user_answer : List Char) (correct_answers : List QuizAnswer) :
    Bool × ℤ × List Char :=
  match correct_answers.find? (tfMatches (normText user_answer)) with
  | some ca => (true, ca.points_awarded, ("Correct! Well done.").toList)
  | none =>
    match correct_answers with
    | [] => (false, 0, ("Incorrect answer.").toList)
    | ca :: _ =>
      (false, 0, ("Incorrect. The correct answer was: ").toList ++ ca.answer_text)

/-- The per-entry loop of _grade_fill_blank. Outer none models the
ZeroDivisionError the source would raise when len(correct_words) is zero;
inner none means the loop finished without a match. -/
def fbLoop (user_answer_lower : List Char) :
    List QuizAnswer → Option (Option (Bool × ℤ × List Char))
  | [] => some none
  | ca :: rest =>
    let ctl := normText ca.answer_text
    if ctl = user_answer_lower then
      some (some (true, ca.points_awarded, ("Correct! Well done.").toList))
    else if pyIn ctl user_answer_lower || pyIn user_answer_lower ctl then
      some (some (true, pyIntMulFrac ca.points_awarded 8 10,
        ("Close! The answer was slightly different than expected.").toList))
    else
      let correct_words := (pySplit ctl).toFinset
      let user_words := (pySplit user_answer_lower).toFinset
      if correct_words.card = 0 then none
      -- the source compares len(inter)/len(correct_words) >= 0.8; with a
      -- positive denominator this is the same as the integer comparison below
      else if 8 * correct_words.card ≤ 10 * (correct_words ∩ user_words).card then
        some (some (true, pyIntMulFrac ca.points_awarded 7 10,
          ("Partially correct. Consider reviewing the exact terminology.").toList))
      else fbLoop user_answer_lower rest

/-- _grade_fill_blank; none models an escaping ZeroDivisionError. -/
def _grade_fill_blank (user_answer : List Char) (correct_answers : List QuizAnswer) :
    Option (Bool × ℤ × List Char) :=
  if pyStrip user_answer = [] then some (false, 0, ("No answer provided.").toList)
  else
    match fbLoop (normText user_answer) correct_answers with
    | none => none
    | some (some r) => some r
    | some none =>
      match correct_answers with
      | [] => some (false, 0, ("Incorrect answer.").toList)
      | ca :: _ =>
        some (false, 0, ("Incorrect. Expected: ").toList ++ ca.answer_text)

/-- The key-term list one correct entry contributes in _grade_essay:
tokens of length above 3, stripped. -/
def essayKeyTerms (ca : QuizAnswer) : List (List Char) :=
  ((pySplit ca.answer_text).filter (fun t => 3 < t.length)).map pyStrip

/-- The total_key_terms accumulator of _grade_essay. -/
def total_key_terms (correct_answers : List QuizAnswer) : ℕ :=
  (correct_answers.map (fun ca => (essayKeyTerms ca).length)).sum

/-- The key_terms_found accumulator of _grade_essay: for every key term of
every correct entry, count it when term.lower() occurs in user_answer.lower(). -/
def key_terms_found (user_answer : List Char) (correct_answers : List QuizAnswer) : ℕ :=
  (correct_answers.map (fun ca =>
    ((essayKeyTerms ca).filter
      (fun t => pyIn (pyLower t) (pyLower user_answer))).length)).sum

/-- _grade_essay. -/
def _grade_essay (user_answer : List Char) (correct_answers : List QuizAnswer) :
    Bool × ℤ × List Char :=
  if pyStrip user_answer = [] then (false, 0, ("No answer provided.").toList)
  else if user_answer.length < 50 then
    (true, 1, ("Response is too short. Please provide more detail and explanation.").toList)
  else
    let total_key_terms : ℕ := total_key_terms correct_answers
    let key_terms_found : ℕ := key_terms_found user_answer correct_answers
    if 0 < total_key_terms then
      -- match_ratio = key_terms_found / total_key_terms; the source computes
      -- int(correct_answers[0].points_awarded * min(match_ratio, 1.0)), the
      -- truncation of points·min(found, total)/total, and compares the ratio
      -- with 0.8 and 0.5, both rendered here in integer arithmetic over the
      -- positive denominator total_key_terms
      let points_awarded : ℤ :=
        match correct_answers with
        | [] => 0
        | ca :: _ =>
          Int.tdiv (ca.points_awarded * (min key_terms_found total_key_terms : ℕ))
            (total_key_terms : ℤ)
      let feedback :=
        if 8 * total_key_terms ≤ 10 * key_terms_found then
          ("Strong response with good coverage of key concepts.").toList
        else if 5 * total_key_terms ≤ 10 * key_terms_found then
          ("Good response but could include more key concepts.").toList
        else ("Response needs more key concepts and details.").toList
      (true, points_awarded, feedback)
    else (true, 0, ("Essay response received.").toList)

/-- The per-entry loop of _grade_text_comparison. -/
def tcLoop (user_answer_lower : List Char) :
    List QuizAnswer → Option (Bool × ℤ × List Char)
  | [] => none
  | ca :: rest =>
    let ctl := normText ca.answer_text
    if ctl = user_answer_lower then
      some (true, ca.points_awarded, ("Correct! Well done.").toList)
    else if pyIn ctl user_answer_lower || pyIn user_answer_lower ctl then
      some (true, pyIntMulFrac ca.points_awarded 8 10, ("Partially correct.").toList)
    else tcLoop user_answer_lower rest

/-- _grade_text_comparison, the fallback grader. -/
def _grade_text_comparison (user_answer : List Char) (correct_answers : List QuizAnswer) :
    Bool × ℤ × List Char :=
  match correct_answers with
  | [] => (false, 0, ("No answer provided or no correct answers defined.").toList)
  | ca0 :: _ =>
    if pyStrip user_answer = [] then
      (false, 0, ("No answer provided or no correct answers defined.").toList)
    else
      match tcLoop (normText user_answer) correct_answers with
      | some r => r
      | none => (false, 0, ("Incorrect. Expected: ").toList ++ ca0.answer_text)

/-- _grade_single_answer: dispatch on question_type.value. -/
def _grade_single_answer (question : QuizQuestion) (user_answer : List Char)
    (correct_answers : List QuizAnswer) : Option (Bool × ℤ × List Char) :=
  if question.question_type = ("mcq").toList then
    some (_grade_mcq user_answer correct_answers)
  else if question.question_type = ("tf").toList then
    some (_grade_true_false user_answer correct_answers)
  else if question.question_type = ("fill_blank").toList then
    _grade_fill_blank user_answer correct_answers
  else if question.question_type = ("essay").toList then
    some (_grade_essay user_answer correct_answers)
  else
    some (_grade_text_comparison user_answer correct_answers)

/-- The exceptions the service can raise while grading. -/
inductive PyError where
  | valueError (msg : List Char)
  | zeroDivisionError
  deriving DecidableEq

/-- The data grade_quiz_submission reads from the database: whether the quiz
row exists, the question rows of the quiz (in question_order), and the
quiz_answers rows. -/
structure GradingEnv where
  quiz_exists : Bool
  questions : List QuizQuestion
  answers : List QuizAnswer
  deriving DecidableEq

/-- The returned grading dict, restricted to its numeric and per-question
content; the feedback-synthesis fields (breakdown, detailed_feedback,
suggestions, misconceptions, recommendations, confidence_level) are derived
from graded_answers and the score and are not modelled. The returned float
overall_score is overall_score_x100 / 100. -/
structure GradingResult where
  quiz_id : ℕ
  user_id : ℕ
  overall_score_x100 : ℤ
  max_score : ℤ
  earned_points : ℤ
  graded_answers : List QuestionResult
  grading_method : List Char
  deriving DecidableEq, Inhabited

/-- The db.query(QuizAnswer).filter(question_id == ..., is_correct == True)
fetch inside the grading loop. -/
def correctAnswersFor (answers : List QuizAnswer) (qid : ℕ) : List QuizAnswer :=
  answers.filter (fun a => a.question_id == qid && a.is_correct)

/-- Lookup in question_map, the dict built from the question list keyed by id
(on a duplicate id the last row wins, as in a dict comprehension); a missing
question_id key in the submitted dict gives None, never a member. -/
def lookupQuestion (questions : List QuizQuestion) (oid : Option ℕ) : Option QuizQuestion :=
  match oid with
  | none => none
  | some i => questions.reverse.find? (fun q => q.id == i)

/-- The grading loop of grade_quiz_submission: builds graded_results and
accumulates total_possible_points and earned_points (earned only counts
results whose is_correct flag is set). none models an escaping
ZeroDivisionError from the fill-blank grader. -/
def gradeLoop (env : GradingEnv) :
    List SubmittedAnswer → Option (List QuestionResult × ℤ × ℤ)
  | [] => some ([], 0, 0)
  | a :: rest =>
    match lookupQuestion env.questions a.question_id with
    | none => gradeLoop env rest
    | some q =>
      match _grade_single_answer q a.answer_text (correctAnswersFor env.answers q.id) with
      | none => none
      | some g =>
        match gradeLoop env rest with
        | none => none
        | some (rs, tp, ep) =>
          some ({ question_id := q.id
                  question_text := q.question_text
                  user_answer := a.answer_text
                  is_correct := g.1
                  points_awarded := g.2.1
                  points_possible := q.points
                  feedback := g.2.2
                  question_type := q.question_type } :: rs,
                q.points + tp,
                (if g.1 then g.2.1 else 0) + ep)

/-- grade_quiz_submission: validates the quiz, grades every submitted answer
whose question exists, and computes overall_score =
round(earned/possible*100, 2) (or 0 when no points were possible), stored
scaled by 100. -/
def grade_quiz_submission (env : GradingEnv) (user_id quiz_id : ℕ)
    (user_answers : List SubmittedAnswer) : Except PyError GradingResult :=
  if env.quiz_exists = false then
    .error (.valueError ("Quiz not found").toList)
  else if env.questions = [] then
    .error (.valueError ("No questions found for this quiz").toList)
  else
    match gradeLoop env user_answers with
    | none => .error .zeroDivisionError
    | some (rs, tp, ep) =>
      .ok { quiz_id := quiz_id
            user_id := user_id
            overall_score_x100 := if 0 < tp then roundHalfEvenDiv (ep * 10000) tp else 0
            max_score := tp
            earned_points := ep
            graded_answers := rs
            grading_method := ("rule_based").toList }

/-! Helper lemmas about the Python string primitives. -/

theorem charOfNat_toNat (n : ℕ) (h : n < 55296) : (Char.ofNat n).toNat = n := by
  unfold Char.ofNat
  rw [dif_pos (Or.inl h)]
  rfl

theorem char_eq_of_toNat (c d : Char) (h : c.toNat = d.toNat) : c = d := by
  have hc := Char.ofNat_toNat c
  rw [h] at hc
  rw [← hc, Char.ofNat_toNat]

theorem pyWhitespace_iff (c : Char) :
    pyWhitespace c = true ↔
      (c.toNat = 32 ∨ c.toNat = 9 ∨ c.toNat = 10 ∨ c.toNat = 13 ∨ c.toNat = 11 ∨ c.toNat = 12) := by
  unfold pyWhitespace
  simp only [Bool.or_eq_true, decide_eq_true_eq]
  constructor
  · rintro (((((rfl | rfl) | rfl) | rfl) | h) | h) <;> simp_all
  · rintro (h | h | h | h | h | h)
    · exact Or.inl (Or.inl (Or.inl (Or.inl (Or.inl (char_eq_of_toNat c ' ' h)))))
    · exact Or.inl (Or.inl (Or.inl (Or.inl (Or.inr (char_eq_of_toNat c '\t' h)))))
    · exact Or.inl (Or.inl (Or.inl (Or.inr (char_eq_of_toNat c '\n' h))))
    · exact Or.inl (Or.inl (Or.inr (char_eq_of_toNat c '\r' h)))
    · exact Or.inl (Or.inr h)
    · exact Or.inr h

theorem pyWhitespace_pyLowerChar (c : Char) :
    pyWhitespace (pyLowerChar c) = pyWhitespace c := by
  unfold pyLowerChar
  split
  · rename_i h
    simp only [Bool.and_eq_true, decide_eq_true_eq] at h
    have hA : 65 ≤ c.toNat := h.1
    have hZ : c.toNat ≤ 90 := h.2
    have ht : (Char.ofNat (c.toNat + 32)).toNat = c.toNat + 32 :=
      charOfNat_toNat _ (by omega)
    have hl : pyWhitespace (Char.ofNat (c.toNat + 32)) = false := by
      rw [← Bool.not_eq_true, pyWhitespace_iff, ht]
      omega
    have hr : pyWhitespace c = false := by
      rw [← Bool.not_eq_true, pyWhitespace_iff]
      omega
    rw [hl, hr]
  · rfl

theorem pyStrip_pyLower (s : List Char) : pyStrip (pyLower s) = pyLower (pyStrip s) := by
  have hdw : ∀ (l : List Char), (pyLower l).dropWhile pyWhitespace = pyLower (l.dropWhile pyWhitespace) := by
    intro l
    induction l with
    | nil => rfl
    | cons c cs ih =>
      simp only [pyLower, List.map_cons, List.dropWhile_cons] at *
      rw [pyWhitespace_pyLowerChar]
      split <;> simp_all [pyLower]
  have hrev : ∀ (l : List Char), (pyLower l).reverse = pyLower l.reverse := by
    intro l
    simp [pyLower]
  unfold pyStrip
  rw [hdw, hrev, hdw, hrev]

theorem pyLower_eq_nil (s : List Char) : pyLower s = [] ↔ s = [] := by
  simp [pyLower]

theorem normText_eq_nil_iff (s : List Char) : normText s = [] ↔ pyStrip s = [] := by
  unfold normText
  rw [pyStrip_pyLower, pyLower_eq_nil]

theorem dropWhile_exists_not (p : Char → Bool) (l : List Char) (h : l.dropWhile p ≠ []) :
    ∃ c ∈ l.dropWhile p, p c = false := by
  induction l with
  | nil => simp at h
  | cons a as ih =>
    rw [List.dropWhile_cons] at h ⊢
    by_cases hp : p a = true
    · rw [if_pos hp] at h ⊢
      exact ih h
    · rw [if_neg hp] at h ⊢
      exact ⟨a, List.mem_cons_self a as, by simpa using hp⟩

theorem pyStrip_exists_not_ws (s : List Char) (h : pyStrip s ≠ []) :
    ∃ c ∈ pyStrip s, pyWhitespace c = false := by
  unfold pyStrip at h ⊢
  have h2 : ((s.dropWhile pyWhitespace).reverse.dropWhile pyWhitespace) ≠ [] := by
    intro hc
    rw [hc] at h
    exact h rfl
  obtain ⟨c, hc, hcp⟩ := dropWhile_exists_not pyWhitespace _ h2
  exact ⟨c, List.mem_reverse.2 hc, hcp⟩

theorem pySplitAux_ne_nil_of_acc (l acc : List Char) (h : acc ≠ []) :
    pySplitAux l acc ≠ [] := by
  induction l generalizing acc with
  | nil => simp [pySplitAux, h]
  | cons c cs ih =>
    unfold pySplitAux
    split
    · simp
    · exact ih _ (by simp)

theorem pySplitAux_ne_nil (l : List Char) (acc : List Char)
    (h : ∃ c ∈ l, pyWhitespace c = false) : pySplitAux l acc ≠ [] := by
  induction l generalizing acc with
  | nil => simp at h
  | cons c cs ih =>
    obtain ⟨d, hd, hdp⟩ := h
    unfold pySplitAux
    split
    · rename_i hws
      have hd2 : d ∈ cs := by
        rcases List.mem_cons.1 hd with rfl | hd2
        · rw [hws] at hdp
          exact absurd hdp (by simp)
        · exact hd2
      split
      · exact ih [] ⟨d, hd2, hdp⟩
      · simp
    · exact pySplitAux_ne_nil_of_acc _ _ (by simp)

theorem pySplit_ne_nil_of_strip (s : List Char) (h : pyStrip s ≠ []) : pySplit (pyStrip s) ≠ [] := by
  obtain ⟨c, hc, hcp⟩ := pyStrip_exists_not_ws s h
  exact pySplitAux_ne_nil _ _ ⟨c, hc, hcp⟩

theorem normText_split_ne_nil (s : List Char) (h : normText s ≠ []) : pySplit (normText s) ≠ [] := by
  unfold normText at h ⊢
  exact pySplit_ne_nil_of_strip _ h

theorem toFinset_card_pos {α : Type} [DecidableEq α] (l : List α) (h : l ≠ []) :
    0 < l.toFinset.card := by
  rcases l with _ | ⟨a, as⟩
  · exact absurd rfl h
  · exact Finset.card_pos.2 ⟨a, by simp⟩

theorem pyIn_nil (l : List Char) : pyIn [] l = true := by
  cases l <;> simp [pyIn, List.isPrefixOf]

/-! Helper lemmas about the integer renderings of the float computations. -/

theorem pyIntMulFrac_nonneg (p n d : ℤ) (hp : 0 ≤ p) (hn : 0 ≤ n) (hd : 0 ≤ d) :
    0 ≤ pyIntMulFrac p n d := by
  unfold pyIntMulFrac
  rw [Int.tdiv_eq_ediv (by positivity) hd]
  exact Int.ediv_nonneg (by positivity) hd

theorem pyIntMulFrac_le (p n d : ℤ) (hp : 0 ≤ p) (hn : 0 ≤ n) (hnd : n ≤ d) (hd : 0 < d) :
    pyIntMulFrac p n d ≤ p := by
  unfold pyIntMulFrac
  rw [Int.tdiv_eq_ediv (by positivity) hd.le]
  calc p * n / d ≤ p * d / d := Int.ediv_le_ediv hd (by nlinarith)
  _ = p := Int.mul_ediv_cancel p (ne_of_gt hd)

theorem pyIntMulFrac_eq_floor (p n : ℤ) (d : ℕ) (hp : 0 ≤ p) (hn : 0 ≤ n) (hd : 0 < d) :
    pyIntMulFrac p n (d : ℤ) = ⌊(p : ℚ) * ((n : ℚ) / (d : ℚ))⌋ := by
  have h1 : (p : ℚ) * ((n : ℚ) / (d : ℚ)) = ((p * n : ℤ) : ℚ) / ((d : ℕ) : ℚ) := by
    push_cast
    ring
  rw [h1, Rat.floor_intCast_div_natCast]
  unfold pyIntMulFrac
  rw [Int.tdiv_eq_ediv (by positivity) (by positivity)]

theorem roundHalfEvenDiv_nonneg (a b : ℤ) (hb : 0 < b) (ha : 0 ≤ a) :
    0 ≤ roundHalfEvenDiv a b := by
  have h := Int.ediv_nonneg ha hb.le
  unfold roundHalfEvenDiv
  split
  · exact h
  · split
    · omega
    · split <;> omega

theorem roundHalfEvenDiv_le (a b M : ℤ) (hb : 0 < b) (hM : a ≤ M * b) :
    roundHalfEvenDiv a b ≤ M := by
  rcases eq_or_lt_of_le hM with heq | hlt
  · have hmod : a % b = 0 := by
      rw [heq]
      exact Int.mul_emod_left M b
    have hdiv : a / b = M := by
      rw [heq]
      exact Int.mul_ediv_cancel M (ne_of_gt hb)
    unfold roundHalfEvenDiv
    rw [hmod, hdiv]
    rw [if_pos (show 2 * (0:ℤ) < b by omega)]
  · have hdiv : a / b < M := (Int.ediv_lt_iff_lt_mul hb).2 hlt
    unfold roundHalfEvenDiv
    split
    · omega
    · split
      · omega
      · split <;> omega

theorem roundHalfEvenDiv_eq_Q (a : ℤ) (b : ℕ) (hb : 0 < b) :
    roundHalfEvenDiv a (b : ℤ) = roundHalfEvenQ ((a : ℚ) / (b : ℚ)) := by
  have hbQ : (0 : ℚ) < (b : ℚ) := by exact_mod_cast hb
  have hbZ : (0 : ℤ) < (b : ℤ) := by exact_mod_cast hb
  have hfl : ⌊(a : ℚ) / (b : ℚ)⌋ = a / (b : ℤ) := by
    exact_mod_cast Rat.floor_intCast_div_natCast a b
  have hsum : a % (b : ℤ) + (b : ℤ) * (a / (b : ℤ)) = a := Int.emod_add_ediv a b
  have key : ((a % (b : ℤ) : ℤ) : ℚ) = (a : ℚ) - (b : ℚ) * ((a / (b : ℤ) : ℤ) : ℚ) := by
    have h0 : ((a % (b : ℤ) : ℤ) : ℚ) + (b : ℚ) * ((a / (b : ℤ) : ℤ) : ℚ) = (a : ℚ) := by
      exact_mod_cast congrArg (Int.cast : ℤ → ℚ) hsum
    linarith
  have hr : (a : ℚ) / (b : ℚ) - ((a / (b : ℤ) : ℤ) : ℚ) = ((a % (b : ℤ) : ℤ) : ℚ) / (b : ℚ) := by
    rw [key, sub_div, mul_div_cancel_left₀ _ (ne_of_gt hbQ)]
  have h1 : ((a : ℚ) / (b : ℚ) - ((a / (b : ℤ) : ℤ) : ℚ) < 1/2) ↔ (2 * (a % (b : ℤ)) < (b : ℤ)) := by
    rw [hr, div_lt_iff hbQ]
    rw [show (1:ℚ)/2 * (b : ℚ) = ((b : ℤ) : ℚ)/2 by push_cast; ring]
    rw [lt_div_iff (show (0:ℚ) < 2 by norm_num)]
    constructor
    · intro h
      have : ((a % (b : ℤ) : ℤ) : ℚ) * 2 < ((b : ℤ) : ℚ) := h
      have h2 : (a % (b : ℤ)) * 2 < (b : ℤ) := by exact_mod_cast this
      omega
    · intro h
      have h2 : (a % (b : ℤ)) * 2 < (b : ℤ) := by omega
      exact_mod_cast h2
  have h2 : (1/2 < (a : ℚ) / (b : ℚ) - ((a / (b : ℤ) : ℤ) : ℚ)) ↔ ((b : ℤ) < 2 * (a % (b : ℤ))) := by
    rw [hr, lt_div_iff hbQ]
    rw [show (1:ℚ)/2 * (b : ℚ) = ((b : ℤ) : ℚ)/2 by push_cast; ring]
    rw [div_lt_iff (show (0:ℚ) < 2 by norm_num)]
    constructor
    · intro h
      have : ((b : ℤ) : ℚ) < ((a % (b : ℤ) : ℤ) : ℚ) * 2 := h
      have h3 : (b : ℤ) < (a % (b : ℤ)) * 2 := by exact_mod_cast this
      omega
    · intro h
      have h3 : (b : ℤ) < (a % (b : ℤ)) * 2 := by omega
      exact_mod_cast h3
  unfold roundHalfEvenDiv roundHalfEvenQ
  simp only [hfl, h1, h2]

/-! Per-grader lemmas: an incorrect result always carries zero points, and
under the answer-key precondition every awarded score lies in [0, P]. -/

theorem mcq_not_correct (ua : List Char) (cas : List QuizAnswer)
    (h : (_grade_mcq ua cas).1 = false) : (_grade_mcq ua cas).2.1 = 0 := by
  simp only [_grade_mcq] at *
  rcases h1 : cas.find? (fun ca => normText ca.answer_text == normText ua) with _ | ca
  · rw [h1] at h ⊢
    rcases h2 : cas.find? (fun ca => pyIn (normText ca.answer_text) (normText ua)) with _ | ca
    · rw [h2] at h ⊢
      rcases cas with _ | ⟨ca, rest⟩ <;> simp
    · rw [h2] at h ⊢
      simp at h
  · rw [h1] at h
    simp at h

theorem tf_not_correct (ua : List Char) (cas : List QuizAnswer)
    (h : (_grade_true_false ua cas).1 = false) : (_grade_true_false ua cas).2.1 = 0 := by
  simp only [_grade_true_false] at *
  rcases h1 : cas.find? (tfMatches (normText ua)) with _ | ca
  · rw [h1] at h
    rcases cas with _ | ⟨ca, rest⟩ <;> simp
  · rw [h1] at h
    simp at h

theorem fbLoop_correct (ual : List Char) (cas : List QuizAnswer) (g : Bool × ℤ × List Char)
    (h : fbLoop ual cas = some (some g)) : g.1 = true := by
  induction cas with
  | nil => simp [fbLoop] at h
  | cons ca rest ih =>
    simp only [fbLoop] at h
    split at h
    · simp only [Option.some.injEq] at h
      rw [h.symm]
    · split at h
      · simp only [Option.some.injEq] at h
        rw [h.symm]
      · split at h
        · exact absurd h (by simp)
        · split at h
          · simp only [Option.some.injEq] at h
            rw [h.symm]
          · exact ih h

theorem fb_not_correct (ua : List Char) (cas : List QuizAnswer) (g : Bool × ℤ × List Char)
    (hg : _grade_fill_blank ua cas = some g) (h : g.1 = false) : g.2.1 = 0 := by
  simp only [_grade_fill_blank] at hg
  split at hg
  · simp only [Option.some.injEq] at hg
    rw [← hg]
  · rcases h1 : fbLoop (normText ua) cas with _ | (_ | g2)
    · rw [h1] at hg
      simp at hg
    · rw [h1] at hg
      rcases cas with _ | ⟨ca, rest⟩
      · simp only [Option.some.injEq] at hg
        rw [hg.symm]
      · simp only [Option.some.injEq] at hg
        rw [hg.symm]
    · rw [h1] at hg
      simp only [Option.some.injEq] at hg
      subst hg
      rw [fbLoop_correct _ _ _ h1] at h
      simp at h

theorem essay_not_correct (ua : List Char) (cas : List QuizAnswer)
    (h : (_grade_essay ua cas).1 = false) : (_grade_essay ua cas).2.1 = 0 := by
  by_cases h1 : pyStrip ua = []
  · simp [_grade_essay, h1]
  · by_cases h2 : ua.length < 50
    · simp [_grade_essay, h1, h2] at h
    · by_cases h3 : 0 < total_key_terms cas
      · simp [_grade_essay, h1, h2, h3] at h
      · simp [_grade_essay, h1, h2, h3] at h

theorem tcLoop_correct (ual : List Char) (cas : List QuizAnswer) (g : Bool × ℤ × List Char)
    (h : tcLoop ual cas = some g) : g.1 = true := by
  induction cas with
  | nil => simp [tcLoop] at h
  | cons ca rest ih =>
    simp only [tcLoop] at h
    split at h
    · simp only [Option.some.injEq] at h
      rw [h.symm]
    · split at h
      · simp only [Option.some.injEq] at h
        rw [h.symm]
      · exact ih h

theorem tc_not_correct (ua : List Char) (cas : List QuizAnswer)
    (h : (_grade_text_comparison ua cas).1 = false) : (_grade_text_comparison ua cas).2.1 = 0 := by
  rcases cas with _ | ⟨ca0, rest⟩
  · simp [_grade_text_comparison]
  · by_cases h1 : pyStrip ua = []
    · simp [_grade_text_comparison, h1]
    · rcases h2 : tcLoop (normText ua) (ca0 :: rest) with _ | g
      · simp [_grade_text_comparison, h1, h2]
      · have h3 := tcLoop_correct _ _ _ h2
        simp [_grade_text_comparison, h1, h2] at h
        rw [h] at h3
        simp at h3

theorem single_not_correct (q : QuizQuestion) (ua : List Char) (cas : List QuizAnswer)
    (g : Bool × ℤ × List Char) (hg : _grade_single_answer q ua cas = some g)
    (h : g.1 = false) : g.2.1 = 0 := by
  unfold _grade_single_answer at hg
  split at hg
  · simp only [Option.some.injEq] at hg
    subst hg
    exact mcq_not_correct ua cas h
  · split at hg
    · simp only [Option.some.injEq] at hg
      subst hg
      exact tf_not_correct ua cas h
    · split at hg
      · exact fb_not_correct ua cas g hg h
      · split at hg
        · simp only [Option.some.injEq] at hg
          subst hg
          exact essay_not_correct ua cas h
        · simp only [Option.some.injEq] at hg
          subst hg
          exact tc_not_correct ua cas h

theorem mcq_bounds (ua : List Char) (cas : List QuizAnswer) (P : ℤ) (hP : 0 ≤ P)
    (hb : ∀ ca ∈ cas, 0 ≤ ca.points_awarded ∧ ca.points_awarded ≤ P) :
    0 ≤ (_grade_mcq ua cas).2.1 ∧ (_grade_mcq ua cas).2.1 ≤ P := by
  simp only [_grade_mcq]
  rcases h1 : cas.find? (fun ca => normText ca.answer_text == normText ua) with _ | ca
  · rcases h2 : cas.find? (fun ca => pyIn (normText ca.answer_text) (normText ua)) with _ | ca
    · rcases cas with _ | ⟨ca, rest⟩ <;> simp [h1, h2, hP]
    · simpa [h1, h2] using hb ca (List.mem_of_find?_eq_some h2)
  · simpa [h1] using hb ca (List.mem_of_find?_eq_some h1)

theorem tf_bounds (ua : List Char) (cas : List QuizAnswer) (P : ℤ) (hP : 0 ≤ P)
    (hb : ∀ ca ∈ cas, 0 ≤ ca.points_awarded ∧ ca.points_awarded ≤ P) :
    0 ≤ (_grade_true_false ua cas).2.1 ∧ (_grade_true_false ua cas).2.1 ≤ P := by
  simp only [_grade_true_false]
  rcases h1 : cas.find? (tfMatches (normText ua)) with _ | ca
  · rcases cas with _ | ⟨ca, rest⟩ <;> simp [h1, hP]
  · simpa [h1] using hb ca (List.mem_of_find?_eq_some h1)

theorem fbLoop_bounds (ual : List Char) (P : ℤ) (hP : 0 ≤ P) :
    ∀ (cas : List QuizAnswer) (g : Bool × ℤ × List Char),
      (∀ ca ∈ cas, 0 ≤ ca.points_awarded ∧ ca.points_awarded ≤ P) →
      fbLoop ual cas = some (some g) → 0 ≤ g.2.1 ∧ g.2.1 ≤ P := by
  intro cas
  induction cas with
  | nil =>
    intro g hb h
    simp [fbLoop] at h
  | cons ca rest ih =>
    intro g hb h
    have hca := hb ca (List.mem_cons_self ca rest)
    simp only [fbLoop] at h
    split at h
    · simp only [Option.some.injEq] at h
      rw [h.symm]
      exact ⟨hca.1, hca.2⟩
    · split at h
      · simp only [Option.some.injEq] at h
        rw [h.symm]
        refine ⟨pyIntMulFrac_nonneg _ _ _ hca.1 (by norm_num) (by norm_num), ?_⟩
        calc pyIntMulFrac ca.points_awarded 8 10 ≤ ca.points_awarded :=
              pyIntMulFrac_le _ _ _ hca.1 (by norm_num) (by norm_num) (by norm_num)
          _ ≤ P := hca.2
      · split at h
        · exact absurd h (by simp)
        · split at h
          · simp only [Option.some.injEq] at h
            rw [h.symm]
            refine ⟨pyIntMulFrac_nonneg _ _ _ hca.1 (by norm_num) (by norm_num), ?_⟩
            calc pyIntMulFrac ca.points_awarded 7 10 ≤ ca.points_awarded :=
                  pyIntMulFrac_le _ _ _ hca.1 (by norm_num) (by norm_num) (by norm_num)
              _ ≤ P := hca.2
          · exact ih g (fun x hx => hb x (List.mem_cons_of_mem ca hx)) h

theorem fb_bounds (ua : List Char) (cas : List QuizAnswer) (P : ℤ) (hP : 0 ≤ P)
    (hb : ∀ ca ∈ cas, 0 ≤ ca.points_awarded ∧ ca.points_awarded ≤ P)
    (g : Bool × ℤ × List Char) (h : _grade_fill_blank ua cas = some g) :
    0 ≤ g.2.1 ∧ g.2.1 ≤ P := by
  simp only [_grade_fill_blank] at h
  split at h
  · simp only [Option.some.injEq] at h
    rw [h.symm]
    exact ⟨le_refl 0, hP⟩
  · rcases h1 : fbLoop (normText ua) cas with _ | (_ | g2)
    · rw [h1] at h
      simp at h
    · rw [h1] at h
      rcases cas with _ | ⟨ca, rest⟩
      · simp only [Option.some.injEq] at h
        rw [h.symm]
        exact ⟨le_refl 0, hP⟩
      · simp only [Option.some.injEq] at h
        rw [h.symm]
        exact ⟨le_refl 0, hP⟩
    · rw [h1] at h
      simp only [Option.some.injEq] at h
      subst h
      exact fbLoop_bounds (normText ua) P hP cas g2 hb h1

theorem essay_bounds (ua : List Char) (cas : List QuizAnswer) (P : ℤ) (hP : 1 ≤ P)
    (hb : ∀ ca ∈ cas, 0 ≤ ca.points_awarded ∧ ca.points_awarded ≤ P) :
    0 ≤ (_grade_essay ua cas).2.1 ∧ (_grade_essay ua cas).2.1 ≤ P := by
  by_cases h1 : pyStrip ua = []
  · simp [_grade_essay, h1]
    omega
  · by_cases h2 : ua.length < 50
    · simp [_grade_essay, h1, h2]
      omega
    · by_cases h3 : 0 < total_key_terms cas
      · rcases cas with _ | ⟨ca, rest⟩
        · simp [total_key_terms] at h3
        · have hca := hb ca (List.mem_cons_self ca rest)
          have ht : (0 : ℤ) < ((total_key_terms (ca :: rest) : ℕ) : ℤ) := by exact_mod_cast h3
          simp only [_grade_essay, if_neg h1, if_neg h2, if_pos h3]
          constructor
          · have hnn : 0 ≤ ca.points_awarded *
                ((min (key_terms_found ua (ca :: rest)) (total_key_terms (ca :: rest)) : ℕ) : ℤ) :=
              mul_nonneg hca.1 (by positivity)
            rw [Int.tdiv_eq_ediv hnn ht.le]
            exact Int.ediv_nonneg hnn ht.le
          · have hmin : ((min (key_terms_found ua (ca :: rest)) (total_key_terms (ca :: rest)) : ℕ) : ℤ) ≤
                ((total_key_terms (ca :: rest) : ℕ) : ℤ) := by
              exact_mod_cast min_le_right _ _
            have hnn : 0 ≤ ca.points_awarded *
                ((min (key_terms_found ua (ca :: rest)) (total_key_terms (ca :: rest)) : ℕ) : ℤ) :=
              mul_nonneg hca.1 (by positivity)
            rw [Int.tdiv_eq_ediv hnn ht.le]
            calc ca.points_awarded *
                  ((min (key_terms_found ua (ca :: rest)) (total_key_terms (ca :: rest)) : ℕ) : ℤ) /
                  ((total_key_terms (ca :: rest) : ℕ) : ℤ) ≤
                ca.points_awarded * ((total_key_terms (ca :: rest) : ℕ) : ℤ) /
                  ((total_key_terms (ca :: rest) : ℕ) : ℤ) :=
                  Int.ediv_le_ediv ht (mul_le_mul_of_nonneg_left hmin hca.1)
              _ = ca.points_awarded := Int.mul_ediv_cancel _ (ne_of_gt ht)
              _ ≤ P := hca.2
      · simp [_grade_essay, h1, h2, h3]
        omega

theorem tcLoop_bounds (ual : List Char) (P : ℤ) (hP : 0 ≤ P) :
    ∀ (cas : List QuizAnswer) (g : Bool × ℤ × List Char),
      (∀ ca ∈ cas, 0 ≤ ca.points_awarded ∧ ca.points_awarded ≤ P) →
      tcLoop ual cas = some g → 0 ≤ g.2.1 ∧ g.2.1 ≤ P := by
  intro cas
  induction cas with
  | nil =>
    intro g hb h
    simp [tcLoop] at h
  | cons ca rest ih =>
    intro g hb h
    have hca := hb ca (List.mem_cons_self ca rest)
    simp only [tcLoop] at h
    split at h
    · simp only [Option.some.injEq] at h
      rw [h.symm]
      exact ⟨hca.1, hca.2⟩
    · split at h
      · simp only [Option.some.injEq] at h
        rw [h.symm]
        refine ⟨pyIntMulFrac_nonneg _ _ _ hca.1 (by norm_num) (by norm_num), ?_⟩
        calc pyIntMulFrac ca.points_awarded 8 10 ≤ ca.points_awarded :=
              pyIntMulFrac_le _ _ _ hca.1 (by norm_num) (by norm_num) (by norm_num)
          _ ≤ P := hca.2
      · exact ih g (fun x hx => hb x (List.mem_cons_of_mem ca hx)) h

theorem tc_bounds (ua : List Char) (cas : List QuizAnswer) (P : ℤ) (hP : 0 ≤ P)
    (hb : ∀ ca ∈ cas, 0 ≤ ca.points_awarded ∧ ca.points_awarded ≤ P) :
    0 ≤ (_grade_text_comparison ua cas).2.1 ∧ (_grade_text_comparison ua cas).2.1 ≤ P := by
  rcases cas with _ | ⟨ca0, rest⟩
  · simp [_grade_text_comparison, hP]
  · by_cases h1 : pyStrip ua = []
    · simp [_grade_text_comparison, h1, hP]
    · rcases h2 : tcLoop (normText ua) (ca0 :: rest) with _ | g
      · simp [_grade_text_comparison, h1, h2, hP]
      · have h3 := tcLoop_bounds (normText ua) P hP (ca0 :: rest) g hb h2
        simp [_grade_text_comparison, h1, h2]
        exact h3

theorem single_bounds (q : QuizQuestion) (ua : List Char) (cas : List QuizAnswer) (P : ℤ)
    (hP : 1 ≤ P) (hb : ∀ ca ∈ cas, 0 ≤ ca.points_awarded ∧ ca.points_awarded ≤ P)
    (g : Bool × ℤ × List Char) (hg : _grade_single_answer q ua cas = some g) :
    0 ≤ g.2.1 ∧ g.2.1 ≤ P := by
  have hP0 : (0 : ℤ) ≤ P := by omega
  unfold _grade_single_answer at hg
  split at hg
  · simp only [Option.some.injEq] at hg
    subst hg
    exact mcq_bounds ua cas P hP0 hb
  · split at hg
    · simp only [Option.some.injEq] at hg
      subst hg
      exact tf_bounds ua cas P hP0 hb
    · split at hg
      · exact fb_bounds ua cas P hP0 hb g hg
      · split at hg
        · simp only [Option.some.injEq] at hg
          subst hg
          exact essay_bounds ua cas P hP hb
        · simp only [Option.some.injEq] at hg
          subst hg
          exact tc_bounds ua cas P hP0 hb

/-! Lemmas about the grading loop and the orchestrator. -/

theorem fbLoop_ne_none (ual : List Char) : ∀ (cas : List QuizAnswer), fbLoop ual cas ≠ none := by
  intro cas
  induction cas with
  | nil => simp [fbLoop]
  | cons ca rest ih =>
    simp only [fbLoop]
    split
    · simp
    · split
      · simp
      · split
        · rename_i hcont hcard
          exfalso
          have hctl : normText ca.answer_text ≠ [] := by
            intro hnil
            rw [hnil] at hcont
            simp [pyIn_nil] at hcont
          have hpos := toFinset_card_pos (pySplit (normText ca.answer_text))
            (normText_split_ne_nil _ hctl)
          omega
        · split
          · simp
          · exact ih

theorem fb_isSome (ua : List Char) (cas : List QuizAnswer) :
    (_grade_fill_blank ua cas).isSome = true := by
  simp only [_grade_fill_blank]
  split
  · simp
  · rcases hf : fbLoop (normText ua) cas with _ | (_ | g2)
    · exact absurd hf (fbLoop_ne_none _ _)
    · rcases cas with _ | ⟨x, xs⟩ <;> simp
    · simp

theorem single_isSome (q : QuizQuestion) (ua : List Char) (cas : List QuizAnswer) :
    (_grade_single_answer q ua cas).isSome = true := by
  unfold _grade_single_answer
  split
  · simp
  · split
    · simp
    · split
      · exact fb_isSome ua cas
      · split <;> simp

theorem gradeLoop_ne_none (env : GradingEnv) :
    ∀ (uas : List SubmittedAnswer), gradeLoop env uas ≠ none := by
  intro uas
  induction uas with
  | nil => simp [gradeLoop]
  | cons a rest ih =>
    simp only [gradeLoop]
    split
    · exact ih
    · rename_i q hq
      split
      · rename_i hg
        have hs := single_isSome q a.answer_text (correctAnswersFor env.answers q.id)
        rw [hg] at hs
        simp at hs
      · split
        · rename_i hrec
          exact absurd hrec ih
        · simp

theorem lookupQuestion_mem (qs : List QuizQuestion) (oid : Option ℕ) (q : QuizQuestion)
    (h : lookupQuestion qs oid = some q) : q ∈ qs ∧ oid = some q.id := by
  unfold lookupQuestion at h
  rcases oid with _ | i
  · simp at h
  · have hm : q ∈ qs.reverse := List.mem_of_find?_eq_some h
    have hp := List.find?_some h
    simp only [beq_iff_eq] at hp
    exact ⟨List.mem_reverse.1 hm, by rw [hp]⟩

theorem gradeLoop_shape (env : GradingEnv) :
    ∀ (uas : List SubmittedAnswer) (out : List QuestionResult × ℤ × ℤ),
      gradeLoop env uas = some out →
      ∀ res ∈ out.1, ∃ q ∈ env.questions, q.id = res.question_id ∧
        res.points_possible = q.points ∧ res.question_type = q.question_type ∧
        _grade_single_answer q res.user_answer (correctAnswersFor env.answers q.id) =
          some (res.is_correct, res.points_awarded, res.feedback) := by
  intro uas
  induction uas with
  | nil =>
    intro out h res hres
    simp only [gradeLoop, Option.some.injEq] at h
    rw [← h] at hres
    simp at hres
  | cons a rest ih =>
    intro out h res hres
    simp only [gradeLoop] at h
    split at h
    · exact ih out h res hres
    · rename_i q hla
      split at h
      · simp at h
      · rename_i g hg
        split at h
        · simp at h
        · rename_i rs tp ep hrec
          simp only [Option.some.injEq] at h
          subst h
          rcases List.mem_cons.1 hres with rfl | hres2
          · have hq := lookupQuestion_mem env.questions a.question_id q hla
            exact ⟨q, hq.1, rfl, rfl, rfl, by simpa using hg⟩
          · exact ih (rs, tp, ep) hrec res hres2

theorem gradeLoop_sums (env : GradingEnv) :
    ∀ (uas : List SubmittedAnswer) (out : List QuestionResult × ℤ × ℤ),
      gradeLoop env uas = some out →
      out.2.1 = (out.1.map (fun res => res.points_possible)).sum ∧
      out.2.2 = (out.1.map (fun res => res.points_awarded)).sum := by
  intro uas
  induction uas with
  | nil =>
    intro out h
    simp only [gradeLoop, Option.some.injEq] at h
    rw [← h]
    simp
  | cons a rest ih =>
    intro out h
    simp only [gradeLoop] at h
    split at h
    · exact ih out h
    · rename_i q hla
      split at h
      · simp at h
      · rename_i g hg
        split at h
        · simp at h
        · rename_i rs tp ep hrec
          simp only [Option.some.injEq] at h
          subst h
          obtain ⟨ih1, ih2⟩ := ih (rs, tp, ep) hrec
          simp only at ih1 ih2
          constructor
          · simp [List.map_cons, List.sum_cons, ih1]
          · cases hgc : g.1 with
            | false =>
              have h0 := single_not_correct q a.answer_text _ g hg hgc
              simp [List.map_cons, List.sum_cons, h0, ih2]
            | true =>
              simp [List.map_cons, List.sum_cons, ih2]

theorem gradeLoop_length (env : GradingEnv) :
    ∀ (uas : List SubmittedAnswer) (out : List QuestionResult × ℤ × ℤ),
      gradeLoop env uas = some out →
      out.1.length =
        (uas.filter (fun a => (lookupQuestion env.questions a.question_id).isSome)).length := by
  intro uas
  induction uas with
  | nil =>
    intro out h
    simp only [gradeLoop, Option.some.injEq] at h
    rw [← h]
    simp
  | cons a rest ih =>
    intro out h
    simp only [gradeLoop] at h
    split at h
    · rename_i hla
      rw [List.filter_cons]
      simp only [hla, Option.isSome_none, Bool.false_eq_true, if_false]
      exact ih out h
    · rename_i q hla
      split at h
      · simp at h
      · rename_i g hg
        split at h
        · simp at h
        · rename_i rs tp ep hrec
          simp only [Option.some.injEq] at h
          subst h
          rw [List.filter_cons]
          simp only [hla, Option.isSome_some, if_true]
          simp only [List.length_cons]
          rw [ih (rs, tp, ep) hrec]

theorem gradeLoop_skip (env : GradingEnv) (a : SubmittedAnswer)
    (ha : lookupQuestion env.questions a.question_id = none) :
    ∀ (pre post : List SubmittedAnswer),
      gradeLoop env (pre ++ a :: post) = gradeLoop env (pre ++ post) := by
  intro pre
  induction pre with
  | nil =>
    intro post
    simp only [List.nil_append, gradeLoop, ha]
  | cons b pre ih =>
    intro post
    simp only [List.cons_append, gradeLoop, List.append_eq]
    rw [ih]

theorem gradeLoop_earned_bounds (env : GradingEnv)
    (hkey : ∀ a ∈ env.answers, ∀ q ∈ env.questions, a.question_id = q.id →
      0 ≤ a.points_awarded ∧ a.points_awarded ≤ q.points)
    (hpts : ∀ q ∈ env.questions, 1 ≤ q.points) :
    ∀ (uas : List SubmittedAnswer) (out : List QuestionResult × ℤ × ℤ),
      gradeLoop env uas = some out →
      0 ≤ out.2.2 ∧ out.2.2 ≤ out.2.1 := by
  intro uas
  induction uas with
  | nil =>
    intro out h
    simp only [gradeLoop, Option.some.injEq] at h
    rw [← h]
    simp
  | cons a rest ih =>
    intro out h
    simp only [gradeLoop] at h
    split at h
    · exact ih out h
    · rename_i q hla
      split at h
      · simp at h
      · rename_i g hg
        split at h
        · simp at h
        · rename_i rs tp ep hrec
          simp only [Option.some.injEq] at h
          subst h
          have hqmem := (lookupQuestion_mem env.questions a.question_id q hla).1
          have hb : ∀ ca ∈ correctAnswersFor env.answers q.id,
              0 ≤ ca.points_awarded ∧ ca.points_awarded ≤ q.points := by
            intro ca hca
            have hm := List.mem_filter.1 hca
            have hqid : ca.question_id = q.id := by
              have := hm.2
              simp only [Bool.and_eq_true, beq_iff_eq] at this
              exact this.1
            exact hkey ca hm.1 q hqmem hqid
          have hbd := single_bounds q a.answer_text _ q.points (hpts q hqmem) hb g hg
          have hp1 : (1 : ℤ) ≤ q.points := hpts q hqmem
          obtain ⟨ih1, ih2⟩ := ih (rs, tp, ep) hrec
          simp only at ih1 ih2
          cases hgc : g.1 with
          | false =>
            simp only [hgc]
            simp
            omega
          | true =>
            simp only [hgc]
            simp
            omega

theorem grade_ok_elim (env : GradingEnv) (uid qid : ℕ) (uas : List SubmittedAnswer)
    (r : GradingResult) (h : grade_quiz_submission env uid qid uas = .ok r) :
    env.quiz_exists = true ∧ env.questions ≠ [] ∧
    gradeLoop env uas = some (r.graded_answers, r.max_score, r.earned_points) ∧
    r.overall_score_x100 =
      (if 0 < r.max_score then roundHalfEvenDiv (r.earned_points * 10000) r.max_score else 0) ∧
    r.quiz_id = qid ∧ r.user_id = uid := by
  unfold grade_quiz_submission at h
  split at h
  · exact absurd h (by simp)
  · rename_i hq
    split at h
    · exact absurd h (by simp)
    · rename_i hqs
      rcases hl : gradeLoop env uas with _ | ⟨rs, tp, ep⟩
      · rw [hl] at h
        simp at h
      · rw [hl] at h
        simp only [Except.ok.injEq] at h
        subst h
        exact ⟨by simpa using hq, hqs, rfl, rfl, rfl, rfl⟩

/-! Concrete data used by witnesses and counterexamples. -/

/-- A one-question MCQ quiz: question 1 is worth 10 points and its single
correct entry Paris awards 10 points. -/
def envParis : GradingEnv :=
  ⟨true, [⟨1, ("What is the capital of France?").toList, ("mcq").toList, 10⟩],
    [⟨1, ("Paris").toList, true, 10⟩]⟩

/-- The submission of the example of section 8 of the spec. -/
def ansParis : List SubmittedAnswer := [⟨some 1, ("paris ").toList⟩]

/-- The grading result of the Paris example. -/
def resParis : GradingResult :=
  (grade_quiz_submission envParis 0 0 ansParis).toOption.getD default

/-- The single correct entry of the Paris example. -/
def entryParis : QuizAnswer := ⟨1, ("Paris").toList, true, 10⟩

/-! The claims. -/

/-- C1: for every quiz whose answer-key entries satisfy
0 ≤ entry.points_awarded ≤ question.points and whose questions have
points ≥ 1, every QuestionResult produced by grading satisfies
0 ≤ points_awarded ≤ points_possible, where points_possible equals the
matched question's points. -/
theorem C1_points_awarded_in_range (env : GradingEnv) (uid qid : ℕ)
    (uas : List SubmittedAnswer) (r : GradingResult)
    (hkey : ∀ a ∈ env.answers, ∀ q ∈ env.questions, a.question_id = q.id →
      0 ≤ a.points_awarded ∧ a.points_awarded ≤ q.points)
    (hpts : ∀ q ∈ env.questions, 1 ≤ q.points)
    (hr : grade_quiz_submission env uid qid uas = .ok r) :
    ∀ res ∈ r.graded_answers, 0 ≤ res.points_awarded ∧
      res.points_awarded ≤ res.points_possible ∧
      ∃ q ∈ env.questions, q.id = res.question_id ∧ res.points_possible = q.points := by
  obtain ⟨-, -, hl, -⟩ := grade_ok_elim env uid qid uas r hr
  intro res hres
  obtain ⟨q, hq, hid, hpp, hqt, hg⟩ :=
    gradeLoop_shape env uas (r.graded_answers, r.max_score, r.earned_points) hl res hres
  have hb : ∀ ca ∈ correctAnswersFor env.answers q.id,
      0 ≤ ca.points_awarded ∧ ca.points_awarded ≤ q.points := by
    intro ca hca
    have hm := List.mem_filter.1 hca
    have hqid : ca.question_id = q.id := by
      have h2 := hm.2
      simp only [Bool.and_eq_true, beq_iff_eq] at h2
      exact h2.1
    exact hkey ca hm.1 q hq hqid
  have hbd := single_bounds q res.user_answer _ q.points (hpts q hq) hb
    (res.is_correct, res.points_awarded, res.feedback) hg
  simp only at hbd
  exact ⟨hbd.1, by rw [hpp]; exact hbd.2, q, hq, hid, hpp⟩

/-- Witness for C1 at the Paris example. -/
theorem C1_witness :
    0 ≤ (resParis.graded_answers.getD 0 default).points_awarded ∧
    (resParis.graded_answers.getD 0 default).points_awarded ≤
      (resParis.graded_answers.getD 0 default).points_possible ∧
    ∃ q ∈ envParis.questions, q.id = (resParis.graded_answers.getD 0 default).question_id ∧
      (resParis.graded_answers.getD 0 default).points_possible = q.points :=
  C1_points_awarded_in_range envParis 0 0 ansParis resParis (by decide) (by decide) (by rfl)
    (resParis.graded_answers.getD 0 default) (by decide)

/-- C3: grading fails, with the validation error, exactly when the quiz is
missing or has zero questions; for every other input every grader returns a
result and no exception escapes — in particular the token-overlap division
in the fill-blank grader never divides by zero. -/
theorem C3_fails_iff_validation (env : GradingEnv) (uid qid : ℕ)
    (uas : List SubmittedAnswer) :
    (env.quiz_exists = false →
      grade_quiz_submission env uid qid uas =
        .error (.valueError ("Quiz not found").toList)) ∧
    (env.quiz_exists = true → env.questions = [] →
      grade_quiz_submission env uid qid uas =
        .error (.valueError ("No questions found for this quiz").toList)) ∧
    (env.quiz_exists = true → env.questions ≠ [] →
      ∃ r, grade_quiz_submission env uid qid uas = .ok r) := by
  refine ⟨?_, ?_, ?_⟩
  · intro h
    unfold grade_quiz_submission
    rw [if_pos h]
  · intro h1 h2
    unfold grade_quiz_submission
    rw [if_neg (by simp [h1]), if_pos h2]
  · intro h1 h2
    unfold grade_quiz_submission
    rw [if_neg (by simp [h1]), if_neg h2]
    rcases hl : gradeLoop env uas with _ | ⟨rs, tp, ep⟩
    · exact absurd hl (gradeLoop_ne_none env uas)
    · exact ⟨_, rfl⟩

/-- Witness for C3: the Paris quiz exists and has a question, so grading
succeeds. -/
theorem C3_witness : ∃ r, grade_quiz_submission envParis 0 0 ansParis = .ok r :=
  (C3_fails_iff_validation envParis 0 0 ansParis).2.2 rfl (by decide)

/-- The positive-points essay key used in the C6 counterexample. -/
def essayKey : QuizAnswer := ⟨1, ("photosynthesis").toList, true, 5⟩

/-- A 71-character answer sharing no key term with the essay key. -/
def essayLongAnswer : List Char :=
  ("this answer is quite long but it does not mention the required key term").toList

/-- C6 counterexample: a non-empty answer of length at least 50 that matches
no key term is scored 0 even though the first correct entry has positive
points, contradicting the claim that only entries worth 0 points can yield
a zero score for a non-empty answer. -/
theorem C6_counterexample :
    pyStrip essayLongAnswer ≠ [] ∧ (0 : ℤ) < essayKey.points_awarded ∧
    _grade_essay essayLongAnswer [essayKey] =
      (true, 0, ("Response needs more key concepts and details.").toList) := by decide

/-- C6 (amended): every non-empty submitted answer shorter than 50 characters
receives exactly 1 point from the essay grader (so it is never scored 0);
an answer of 50 characters or more can be scored 0 even when the first
correct entry has positive points, namely when it matches no key term. -/
theorem C6_amended_short_answers (ua : List Char) (cas : List QuizAnswer)
    (h1 : pyStrip ua ≠ []) (h2 : ua.length < 50) :
    _grade_essay ua cas =
      (true, 1,
        ("Response is too short. Please provide more detail and explanation.").toList) := by
  simp [_grade_essay, h1, h2]

/-- Witness for the amended C6. -/
theorem C6_witness :
    _grade_essay (("hi").toList) [essayKey] =
      (true, 1,
        ("Response is too short. Please provide more detail and explanation.").toList) :=
  C6_amended_short_answers (("hi").toList) [essayKey] (by decide) (by decide)

/-- C7: the MCQ grader awards full entry points on an exact normalized match
with the "Correct!" feedback; failing that, full entry points with the
downgraded "Partially correct" feedback when some correct entry's normalized
text occurs inside the submitted text; failing both, it returns incorrect
with 0 points and feedback naming the first correct entry. The Paris example
(10-point MCQ, correct entry Paris worth 10, answer "paris ") grades
correct with 10 points and overall score 100.00. -/
theorem C7_mcq_tiers (ua : List Char) (cas : List QuizAnswer) :
    ((∃ ca ∈ cas, normText ca.answer_text = normText ua) →
      ∃ ca ∈ cas, normText ca.answer_text = normText ua ∧
        _grade_mcq ua cas = (true, ca.points_awarded, ("Correct! Well done.").toList)) ∧
    ((∀ ca ∈ cas, normText ca.answer_text ≠ normText ua) →
      (∃ ca ∈ cas, pyIn (normText ca.answer_text) (normText ua) = true) →
      ∃ ca ∈ cas, pyIn (normText ca.answer_text) (normText ua) = true ∧
        _grade_mcq ua cas =
          (true, ca.points_awarded,
            ("Partially correct. Consider reviewing the material for a complete answer.").toList)) ∧
    ((∀ ca ∈ cas, normText ca.answer_text ≠ normText ua) →
      (∀ ca ∈ cas, pyIn (normText ca.answer_text) (normText ua) = false) →
      ∀ (ca0 : QuizAnswer) (rest : List QuizAnswer), cas = ca0 :: rest →
        _grade_mcq ua cas =
          (false, 0, ("Incorrect. The correct answer was: ").toList ++ ca0.answer_text)) ∧
    (grade_quiz_submission envParis 0 0 ansParis).toOption.map
      (fun r => (r.overall_score_x100,
        r.graded_answers.map (fun res => (res.is_correct, res.points_awarded)))) =
      some (10000, [(true, 10)]) := by
  refine ⟨?_, ?_, ?_, by decide⟩
  · intro hex
    have hsome : (cas.find? (fun ca => normText ca.answer_text == normText ua)).isSome := by
      rw [List.find?_isSome]
      obtain ⟨x, hx, he⟩ := hex
      exact ⟨x, hx, by simp [he]⟩
    rw [Option.isSome_iff_exists] at hsome
    obtain ⟨ca, hca⟩ := hsome
    refine ⟨ca, List.mem_of_find?_eq_some hca, ?_, ?_⟩
    · have := List.find?_some hca
      simpa using this
    · simp only [_grade_mcq, hca]
  · intro hnone hex
    have hfd1 : cas.find? (fun ca => normText ca.answer_text == normText ua) = none := by
      rw [List.find?_eq_none]
      intro x hx
      simp [hnone x hx]
    have hsome : (cas.find? (fun ca => pyIn (normText ca.answer_text) (normText ua))).isSome := by
      rw [List.find?_isSome]
      obtain ⟨x, hx, he⟩ := hex
      exact ⟨x, hx, by simp [he]⟩
    rw [Option.isSome_iff_exists] at hsome
    obtain ⟨ca, hca⟩ := hsome
    refine ⟨ca, List.mem_of_find?_eq_some hca, by simpa using List.find?_some hca, ?_⟩
    simp only [_grade_mcq, hfd1, hca]
  · intro hnone1 hnone2 ca0 rest hcas
    have hfd1 : cas.find? (fun ca => normText ca.answer_text == normText ua) = none := by
      rw [List.find?_eq_none]
      intro x hx
      simp [hnone1 x hx]
    have hfd2 : cas.find? (fun ca => pyIn (normText ca.answer_text) (normText ua)) = none := by
      rw [List.find?_eq_none]
      intro x hx
      simp [hnone2 x hx]
    subst hcas
    simp only [_grade_mcq, hfd1, hfd2]

/-- Witness for C7: the three tiers at concrete inputs. -/
theorem C7_witness :
    (∃ ca ∈ [entryParis], normText ca.answer_text = normText (("paris ").toList) ∧
      _grade_mcq (("paris ").toList) [entryParis] =
        (true, ca.points_awarded, ("Correct! Well done.").toList)) ∧
    (∃ ca ∈ [entryParis],
      pyIn (normText ca.answer_text) (normText (("the answer is paris!").toList)) = true ∧
      _grade_mcq (("the answer is paris!").toList) [entryParis] =
        (true, ca.points_awarded,
          ("Partially correct. Consider reviewing the material for a complete answer.").toList)) ∧
    _grade_mcq (("london").toList) [entryParis] =
      (false, 0, ("Incorrect. The correct answer was: ").toList ++ entryParis.answer_text) :=
  ⟨(C7_mcq_tiers (("paris ").toList) [entryParis]).1 (by decide),
   (C7_mcq_tiers (("the answer is paris!").toList) [entryParis]).2.1 (by decide) (by decide),
   (C7_mcq_tiers (("london").toList) [entryParis]).2.2.1 (by decide) (by decide) entryParis [] rfl⟩

/-- C5 counterexample: an empty MCQ answer is graded incorrect with 0 points
but its feedback names the first correct entry instead of being a
"no answer" message, so not every question type yields a "no answer"
message on empty input. -/
theorem C5_counterexample :
    _grade_mcq [] [entryParis] =
      (false, 0, ("Incorrect. The correct answer was: ").toList ++ entryParis.answer_text) ∧
    ("Incorrect. The correct answer was: ").toList ++ entryParis.answer_text ≠
      ("No answer provided.").toList := by decide

/-- C5 (amended): on an empty or whitespace-only submitted answer the
fill-blank and essay graders return incorrect, 0 points and the
"No answer provided." message, and the fallback grader its combined
no-answer message; the true/false grader returns incorrect with 0 points
(with feedback naming the first correct entry when one exists); the MCQ
grader returns incorrect with 0 points provided no correct entry's text is
empty or whitespace-only (such an entry matches by containment and is
awarded its points), again with incorrect-style feedback rather than a
"no answer" message. -/
theorem C5_amended_empty_answers (ua : List Char) (cas : List QuizAnswer)
    (hua : pyStrip ua = []) :
    _grade_fill_blank ua cas = some (false, 0, ("No answer provided.").toList) ∧
    _grade_essay ua cas = (false, 0, ("No answer provided.").toList) ∧
    _grade_text_comparison ua cas =
      (false, 0, ("No answer provided or no correct answers defined.").toList) ∧
    (_grade_true_false ua cas).1 = false ∧ (_grade_true_false ua cas).2.1 = 0 ∧
    ((∀ ca ∈ cas, normText ca.answer_text ≠ []) →
      (_grade_mcq ua cas).1 = false ∧ (_grade_mcq ua cas).2.1 = 0) := by
  have hnorm : normText ua = [] := (normText_eq_nil_iff ua).2 hua
  have htf0 : ∀ x : QuizAnswer, tfMatches (normText ua) x = false := by
    intro x
    rw [hnorm]
    unfold tfMatches
    rw [show tfTrueUser.contains ([] : List Char) = false from by decide,
        show tfFalseUser.contains ([] : List Char) = false from by decide]
    simp
  have hfd : cas.find? (tfMatches (normText ua)) = none := by
    rw [List.find?_eq_none]
    intro x hx
    simp [htf0 x]
  refine ⟨by simp [_grade_fill_blank, hua], by simp [_grade_essay, hua], ?_, ?_, ?_, ?_⟩
  · rcases cas with _ | ⟨ca0, rest⟩
    · simp [_grade_text_comparison]
    · simp [_grade_text_comparison, hua]
  · simp only [_grade_true_false, hfd]
    rcases cas with _ | ⟨ca0, rest⟩ <;> simp
  · simp only [_grade_true_false, hfd]
    rcases cas with _ | ⟨ca0, rest⟩ <;> simp
  · intro hne
    have hfd1 : cas.find? (fun ca => normText ca.answer_text == normText ua) = none := by
      rw [List.find?_eq_none]
      intro x hx
      rw [hnorm]
      simp [hne x hx]
    have hfd2 : cas.find? (fun ca => pyIn (normText ca.answer_text) (normText ua)) = none := by
      rw [List.find?_eq_none]
      intro x hx
      rw [hnorm]
      have hx2 := hne x hx
      rcases hx3 : normText x.answer_text with _ | ⟨c, cs⟩
      · exact absurd hx3 hx2
      · simp [pyIn, List.isPrefixOf]
    constructor
    · simp only [_grade_mcq, hfd1, hfd2]
      rcases cas with _ | ⟨ca0, rest⟩ <;> simp
    · simp only [_grade_mcq, hfd1, hfd2]
      rcases cas with _ | ⟨ca0, rest⟩ <;> simp

/-- Witness for the amended C5 at a whitespace-only answer. -/
theorem C5_witness :
    _grade_fill_blank (("  ").toList) [entryParis] =
      some (false, 0, ("No answer provided.").toList) ∧
    _grade_essay (("  ").toList) [entryParis] = (false, 0, ("No answer provided.").toList) ∧
    _grade_text_comparison (("  ").toList) [entryParis] =
      (false, 0, ("No answer provided or no correct answers defined.").toList) ∧
    (_grade_true_false (("  ").toList) [entryParis]).1 = false ∧
    (_grade_true_false (("  ").toList) [entryParis]).2.1 = 0 ∧
    ((∀ ca ∈ [entryParis], normText ca.answer_text ≠ []) →
      (_grade_mcq (("  ").toList) [entryParis]).1 = false ∧
      (_grade_mcq (("  ").toList) [entryParis]).2.1 = 0) :=
  C5_amended_empty_answers (("  ").toList) [entryParis] (by decide)

/-- C8: in the fill-blank grader, when the first correct entry fails both
the exact-equality and the two-way containment tiers but the token-overlap
ratio |key-tokens ∩ submitted-tokens| / |key-tokens| is at least 0.8
(inclusive), the grader returns correct with the integer floor of 0.7 times
that entry's points_awarded and the "review terminology" feedback. -/
theorem C8_fill_blank_token_overlap (ua : List Char) (ca : QuizAnswer)
    (rest : List QuizAnswer)
    (hpa : 0 ≤ ca.points_awarded)
    (hne : pyStrip ua ≠ [])
    (hex : normText ca.answer_text ≠ normText ua)
    (hc1 : pyIn (normText ca.answer_text) (normText ua) = false)
    (hc2 : pyIn (normText ua) (normText ca.answer_text) = false)
    (hratio : (8 : ℚ)/10 ≤
      (((pySplit (normText ca.answer_text)).toFinset ∩
        (pySplit (normText ua)).toFinset).card : ℚ) /
      ((pySplit (normText ca.answer_text)).toFinset.card : ℚ)) :
    _grade_fill_blank ua (ca :: rest) =
      some (true, ⌊(ca.points_awarded : ℚ) * (7/10)⌋,
        ("Partially correct. Consider reviewing the exact terminology.").toList) ∧
    pyIntMulFrac ca.points_awarded 7 10 = ⌊(ca.points_awarded : ℚ) * (7/10)⌋ := by
  have hctl : normText ca.answer_text ≠ [] := by
    intro h0
    rw [h0, pyIn_nil] at hc1
    simp at hc1
  have hcard : 0 < (pySplit (normText ca.answer_text)).toFinset.card :=
    toFinset_card_pos _ (normText_split_ne_nil _ hctl)
  have hcardQ : (0 : ℚ) < ((pySplit (normText ca.answer_text)).toFinset.card : ℚ) := by
    exact_mod_cast hcard
  have hint : 8 * (pySplit (normText ca.answer_text)).toFinset.card ≤
      10 * ((pySplit (normText ca.answer_text)).toFinset ∩
        (pySplit (normText ua)).toFinset).card := by
    have h1 := (div_le_div_iff (by norm_num) hcardQ).1 hratio
    have h2 : (8 : ℚ) * ((pySplit (normText ca.answer_text)).toFinset.card : ℚ) ≤
        10 * (((pySplit (normText ca.answer_text)).toFinset ∩
          (pySplit (normText ua)).toFinset).card : ℚ) := by linarith
    exact_mod_cast h2
  have hfloor : pyIntMulFrac ca.points_awarded 7 10 = ⌊(ca.points_awarded : ℚ) * (7/10)⌋ := by
    have h := pyIntMulFrac_eq_floor ca.points_awarded 7 10 hpa (by norm_num) (by norm_num)
    push_cast at h
    exact h
  have hloop : fbLoop (normText ua) (ca :: rest) =
      some (some (true, pyIntMulFrac ca.points_awarded 7 10,
        ("Partially correct. Consider reviewing the exact terminology.").toList)) := by
    simp only [fbLoop]
    rw [if_neg hex, if_neg (by rw [hc1, hc2]; simp), if_neg (by omega), if_pos hint]
  refine ⟨?_, hfloor⟩
  rw [← hfloor]
  simp [_grade_fill_blank, hne, hloop]

/-- The entry and submission exercising the exact 0.8 overlap boundary. -/
def entryTokens : QuizAnswer := ⟨1, ("alpha beta gamma delta epsilon").toList, true, 10⟩

/-- A submission sharing exactly 4 of the 5 key tokens. -/
def uaTokens : List Char := ("alpha beta gamma delta zeta").toList

/-- Witness for C8 at a ratio of exactly 0.8. -/
theorem C8_witness :
    _grade_fill_blank uaTokens (entryTokens :: []) =
      some (true, ⌊(entryTokens.points_awarded : ℚ) * (7/10)⌋,
        ("Partially correct. Consider reviewing the exact terminology.").toList) ∧
    pyIntMulFrac entryTokens.points_awarded 7 10 =
      ⌊(entryTokens.points_awarded : ℚ) * (7/10)⌋ := by
  have hr : (8 : ℚ)/10 ≤
      (((pySplit (normText entryTokens.answer_text)).toFinset ∩
        (pySplit (normText uaTokens)).toFinset).card : ℚ) /
      ((pySplit (normText entryTokens.answer_text)).toFinset.card : ℚ) := by
    rw [show ((pySplit (normText entryTokens.answer_text)).toFinset ∩
        (pySplit (normText uaTokens)).toFinset).card = 4 from by decide]
    rw [show (pySplit (normText entryTokens.answer_text)).toFinset.card = 5 from by decide]
    norm_num
  exact C8_fill_blank_token_overlap uaTokens entryTokens [] (by decide) (by decide)
    (by decide) (by decide) (by decide) hr

/-- The correct entry whose text normalizes to t, used by the C9
counterexample. -/
def entryT : QuizAnswer := ⟨1, ("t").toList, true, 5⟩

/-- C9 counterexample: both the entry text t and the submission true
normalize into the claimed true-set, yet the grader marks the answer
incorrect, because the key side is only compared against
{true, yes, correct} (without t and y). -/
theorem C9_counterexample :
    tfTrueUser.contains (normText (("t").toList)) = true ∧
    tfTrueUser.contains (normText (("true").toList)) = true ∧
    _grade_true_false (("true").toList) [entryT] =
      (false, 0, ("Incorrect. The correct answer was: ").toList ++ entryT.answer_text) := by
  decide

/-- C9 (amended): the submitted answer is normalized via the extended sets
{true, yes, correct, t, y} and {false, no, incorrect, f, n}, but each correct
entry's text only via the base sets {true, yes, correct} and
{false, no, incorrect}: the answer is marked correct with the matching
entry's full points exactly when some correct entry agrees under this
asymmetric matching (tfMatches), there is never partial credit, and a
correct entry whose text normalizes to t, y, f or n never matches any
submission. -/
theorem C9_amended_tf_asymmetric (ua : List Char) (cas : List QuizAnswer) :
    ((∃ ca ∈ cas, tfMatches (normText ua) ca = true) →
      ∃ ca ∈ cas, tfMatches (normText ua) ca = true ∧
        _grade_true_false ua cas =
          (true, ca.points_awarded, ("Correct! Well done.").toList)) ∧
    ((∀ ca ∈ cas, tfMatches (normText ua) ca = false) →
      ∀ (ca0 : QuizAnswer) (rest : List QuizAnswer), cas = ca0 :: rest →
        _grade_true_false ua cas =
          (false, 0, ("Incorrect. The correct answer was: ").toList ++ ca0.answer_text)) ∧
    (_grade_true_false ua [] = (false, 0, ("Incorrect answer.").toList)) ∧
    (∀ (ca : QuizAnswer) (ua2 : List Char),
      (normText ca.answer_text = ("t").toList ∨ normText ca.answer_text = ("y").toList ∨
       normText ca.answer_text = ("f").toList ∨ normText ca.answer_text = ("n").toList) →
      tfMatches (normText ua2) ca = false) := by
  refine ⟨?_, ?_, by simp [_grade_true_false], ?_⟩
  · intro hex
    have hsome : (cas.find? (tfMatches (normText ua))).isSome := by
      rw [List.find?_isSome]
      obtain ⟨x, hx, he⟩ := hex
      exact ⟨x, hx, he⟩
    rw [Option.isSome_iff_exists] at hsome
    obtain ⟨ca, hca⟩ := hsome
    exact ⟨ca, List.mem_of_find?_eq_some hca, List.find?_some hca,
      by simp only [_grade_true_false, hca]⟩
  · intro hnone ca0 rest hcas
    have hfd : cas.find? (tfMatches (normText ua)) = none := by
      rw [List.find?_eq_none]
      intro x hx
      simp [hnone x hx]
    subst hcas
    simp only [_grade_true_false, hfd]
  · intro ca ua2 hmem
    unfold tfMatches
    rcases hmem with h | h | h | h <;> rw [h] <;> simp <;>
      exact ⟨fun hm => absurd hm (by decide), fun hm => absurd hm (by decide)⟩

/-- The conventional entry True used by the C9 witness. -/
def entryTrue : QuizAnswer := ⟨1, ("True").toList, true, 5⟩

/-- Witness for the amended C9. -/
theorem C9_witness :
    (∃ ca ∈ [entryTrue], tfMatches (normText (("yes").toList)) ca = true ∧
      _grade_true_false (("yes").toList) [entryTrue] =
        (true, ca.points_awarded, ("Correct! Well done.").toList)) ∧
    _grade_true_false (("maybe").toList) [entryT] =
      (false, 0, ("Incorrect. The correct answer was: ").toList ++ entryT.answer_text) ∧
    tfMatches (normText (("true").toList)) entryT = false :=
  ⟨(C9_amended_tf_asymmetric (("yes").toList) [entryTrue]).1 (by decide),
   (C9_amended_tf_asymmetric (("maybe").toList) [entryT]).2.1 (by decide) entryT [] rfl,
   (C9_amended_tf_asymmetric [] []).2.2.2 entryT (("true").toList) (by decide)⟩

/-- C10: for a non-empty submitted answer, a correct entry whose text strips
to the empty string matches the containment tier (the empty string occurs
in every string), so the grader returns correct with the integer floor of
0.8 times that entry's points_awarded and the "Close!" feedback; and the
token-overlap division is never reached with an empty key token set — the
fill-blank grader never raises, and every non-empty normalized key has at
least one token. -/
theorem C10_empty_key_containment (ua : List Char) (ca : QuizAnswer)
    (rest : List QuizAnswer)
    (hne : pyStrip ua ≠ []) (hkey : normText ca.answer_text = [])
    (hpa : 0 ≤ ca.points_awarded) :
    _grade_fill_blank ua (ca :: rest) =
      some (true, ⌊(ca.points_awarded : ℚ) * (8/10)⌋,
        ("Close! The answer was slightly different than expected.").toList) ∧
    pyIntMulFrac ca.points_awarded 8 10 = ⌊(ca.points_awarded : ℚ) * (8/10)⌋ ∧
    (∀ (ua2 : List Char) (cas2 : List QuizAnswer),
      (_grade_fill_blank ua2 cas2).isSome = true) ∧
    (∀ (s : List Char), normText s ≠ [] → 0 < (pySplit (normText s)).toFinset.card) := by
  have hfloor : pyIntMulFrac ca.points_awarded 8 10 = ⌊(ca.points_awarded : ℚ) * (8/10)⌋ := by
    have h := pyIntMulFrac_eq_floor ca.points_awarded 8 10 hpa (by norm_num) (by norm_num)
    push_cast at h
    exact h
  have hual : normText ua ≠ [] := fun h0 => hne ((normText_eq_nil_iff ua).1 h0)
  have hloop : fbLoop (normText ua) (ca :: rest) =
      some (some (true, pyIntMulFrac ca.points_awarded 8 10,
        ("Close! The answer was slightly different than expected.").toList)) := by
    simp only [fbLoop]
    rw [hkey, if_neg (fun h => hual h.symm), if_pos (by rw [pyIn_nil]; simp)]
  refine ⟨?_, hfloor, fun ua2 cas2 => fb_isSome ua2 cas2,
    fun s hs => toFinset_card_pos _ (normText_split_ne_nil s hs)⟩
  rw [← hfloor]
  simp [_grade_fill_blank, hne, hloop]

/-- The whitespace-only correct entry used by the C10 witness. -/
def entryBlank : QuizAnswer := ⟨1, ("   ").toList, true, 10⟩

/-- Witness for C10. -/
theorem C10_witness :
    _grade_fill_blank (("hi").toList) (entryBlank :: []) =
      some (true, ⌊(entryBlank.points_awarded : ℚ) * (8/10)⌋,
        ("Close! The answer was slightly different than expected.").toList) ∧
    pyIntMulFrac entryBlank.points_awarded 8 10 =
      ⌊(entryBlank.points_awarded : ℚ) * (8/10)⌋ ∧
    (∀ (ua2 : List Char) (cas2 : List QuizAnswer),
      (_grade_fill_blank ua2 cas2).isSome = true) ∧
    (∀ (s : List Char), normText s ≠ [] → 0 < (pySplit (normText s)).toFinset.card) :=
  C10_empty_key_containment (("hi").toList) entryBlank [] (by decide) (by decide) (by decide)

/-- The C2 counterexample environment: a 0-point essay question whose entry
awards 0 (within the stated bound) plus a 10-point MCQ. -/
def envScore110 : GradingEnv :=
  ⟨true,
    [⟨1, ("Explain the concept.").toList, ("essay").toList, 0⟩,
     ⟨2, ("Pick one.").toList, ("mcq").toList, 10⟩],
    [⟨1, ("concept").toList, true, 0⟩, ⟨2, ("a").toList, true, 10⟩]⟩

/-- The C2 counterexample submission: a short non-empty essay answer (worth
the fixed 1-point attempt credit) and a fully correct MCQ answer. -/
def ansScore110 : List SubmittedAnswer := [⟨some 1, ("hi").toList⟩, ⟨some 2, ("a").toList⟩]

/-- C2 counterexample: every answer-key entry satisfies
0 ≤ points_awarded ≤ question.points, yet the overall score is 110.00
(11000 when scaled by 100), outside [0, 100]: the stated key precondition,
which does not require question points ≥ 1, does not bound the score. -/
theorem C2_counterexample :
    (envScore110.answers.all (fun a => envScore110.questions.all (fun q =>
      !(a.question_id == q.id) ||
        (decide (0 ≤ a.points_awarded) && decide (a.points_awarded ≤ q.points))))) = true ∧
    (grade_quiz_submission envScore110 0 0 ansScore110).toOption.map
      (fun r => r.overall_score_x100) = some 11000 ∧
    ¬ ((11000 : ℤ) ≤ 100 * 100) := by decide

/-- C2 (amended): the returned overall score (scaled by 100) equals
round(earned/possible·100, 2) where earned and possible are the sums of
points_awarded and points_possible over the produced QuestionResults (earned
counts every result because incorrect results always carry 0 points); it is
exactly 0 when possible = 0; and under the full key precondition
(0 ≤ entry points ≤ question points and question points ≥ 1) it always lies
in [0, 100]. -/
theorem C2_amended_overall_score (env : GradingEnv) (uid qid : ℕ)
    (uas : List SubmittedAnswer) (r : GradingResult)
    (hr : grade_quiz_submission env uid qid uas = .ok r) :
    r.max_score = (r.graded_answers.map (fun res => res.points_possible)).sum ∧
    r.earned_points = (r.graded_answers.map (fun res => res.points_awarded)).sum ∧
    (r.overall_score_x100 : ℚ) / 100 =
      round2 (if 0 < r.max_score then
        (r.earned_points : ℚ) / (r.max_score : ℚ) * 100 else 0) ∧
    (r.max_score = 0 → r.overall_score_x100 = 0) ∧
    ((∀ a ∈ env.answers, ∀ q ∈ env.questions, a.question_id = q.id →
        0 ≤ a.points_awarded ∧ a.points_awarded ≤ q.points) →
      (∀ q ∈ env.questions, 1 ≤ q.points) →
      0 ≤ r.overall_score_x100 ∧ r.overall_score_x100 ≤ 10000) := by
  obtain ⟨-, -, hl, hx, -, -⟩ := grade_ok_elim env uid qid uas r hr
  have hsums := gradeLoop_sums env uas (r.graded_answers, r.max_score, r.earned_points) hl
  simp only at hsums
  refine ⟨hsums.1, hsums.2, ?_, ?_, ?_⟩
  · rw [hx]
    by_cases htp : 0 < r.max_score
    · rw [if_pos htp, if_pos htp]
      have htpn : ((r.max_score.toNat : ℕ) : ℤ) = r.max_score := Int.toNat_of_nonneg htp.le
      have hEq := roundHalfEvenDiv_eq_Q (r.earned_points * 10000) r.max_score.toNat (by omega)
      rw [htpn] at hEq
      have hQ : ((r.max_score.toNat : ℕ) : ℚ) = (r.max_score : ℚ) := by exact_mod_cast htpn
      have htpQ : (r.max_score : ℚ) ≠ 0 := by
        have h0 : r.max_score ≠ 0 := by omega
        exact_mod_cast h0
      have harg : ((r.earned_points * 10000 : ℤ) : ℚ) / ((r.max_score.toNat : ℕ) : ℚ) =
          (r.earned_points : ℚ) / (r.max_score : ℚ) * 100 * 100 := by
        rw [hQ]
        push_cast
        field_simp
        ring
      rw [hEq, harg]
      unfold round2
      rfl
    · rw [if_neg htp, if_neg htp]
      norm_num [round2, roundHalfEvenQ]
  · intro h0
    rw [hx, h0]
    simp
  · intro hkey hpts
    have hb := gradeLoop_earned_bounds env hkey hpts uas
      (r.graded_answers, r.max_score, r.earned_points) hl
    simp only at hb
    rw [hx]
    by_cases htp : 0 < r.max_score
    · rw [if_pos htp]
      refine ⟨roundHalfEvenDiv_nonneg _ _ htp (mul_nonneg hb.1 (by norm_num)), ?_⟩
      refine roundHalfEvenDiv_le _ _ 10000 htp ?_
      have hmul := mul_le_mul_of_nonneg_right hb.2 (by norm_num : (0:ℤ) ≤ 10000)
      linarith
    · rw [if_neg htp]
      norm_num

/-- Witness for the amended C2 at the Paris example. -/
theorem C2_witness :
    resParis.max_score = (resParis.graded_answers.map (fun res => res.points_possible)).sum ∧
    resParis.earned_points =
      (resParis.graded_answers.map (fun res => res.points_awarded)).sum ∧
    (resParis.overall_score_x100 : ℚ) / 100 =
      round2 (if 0 < resParis.max_score then
        (resParis.earned_points : ℚ) / (resParis.max_score : ℚ) * 100 else 0) ∧
    (resParis.max_score = 0 → resParis.overall_score_x100 = 0) ∧
    ((∀ a ∈ envParis.answers, ∀ q ∈ envParis.questions, a.question_id = q.id →
        0 ≤ a.points_awarded ∧ a.points_awarded ≤ q.points) →
      (∀ q ∈ envParis.questions, 1 ≤ q.points) →
      0 ≤ resParis.overall_score_x100 ∧ resParis.overall_score_x100 ≤ 10000) :=
  C2_amended_overall_score envParis 0 0 ansParis resParis (by rfl)

/-- The duplicated submission of the C4 counterexample: the same question is
answered twice. -/
def ansDup : List SubmittedAnswer := [⟨some 1, ("paris").toList⟩, ⟨some 1, ("x").toList⟩]

/-- C4 counterexample: submitting two answers for the single question of the
quiz produces two QuestionResults, exceeding min(submitted, questions) = 1. -/
theorem C4_counterexample :
    (grade_quiz_submission envParis 0 0 ansDup).toOption.map
      (fun r => r.graded_answers.length) = some 2 ∧
    ansDup.length = 2 ∧ envParis.questions.length = 1 ∧
    ¬ (2 ≤ min ansDup.length envParis.questions.length) := by decide

theorem length_filterMap_of_isSome {α β : Type} (f : α → Option β) :
    ∀ (l : List α), (∀ a ∈ l, (f a).isSome) → (l.filterMap f).length = l.length := by
  intro l
  induction l with
  | nil =>
    intro h
    simp
  | cons a as ih =>
    intro h
    have ha := h a (List.mem_cons_self a as)
    rcases hfa : f a with _ | b
    · rw [hfa] at ha
      simp at ha
    · rw [List.filterMap_cons, hfa]
      simp [ih (fun x hx => h x (List.mem_cons_of_mem a hx))]

/-- C4 (amended): the number of QuestionResults equals the number of
submitted answers whose questionId resolves to a quiz question, hence is at
most the number of submitted answers; it is at most
min(submitted answers, quiz questions) whenever the submitted questionIds
are pairwise distinct (duplicated ids break that bound, as the
counterexample shows); every result's questionId belongs to a quiz
question; and a submitted answer with an unknown questionId is silently
skipped: removing it leaves the whole grading result unchanged. -/
theorem C4_amended_result_count (env : GradingEnv) (uid qid : ℕ)
    (uas : List SubmittedAnswer) (r : GradingResult)
    (hr : grade_quiz_submission env uid qid uas = .ok r) :
    r.graded_answers.length =
      (uas.filter (fun a => (lookupQuestion env.questions a.question_id).isSome)).length ∧
    r.graded_answers.length ≤ uas.length ∧
    ((uas.filterMap (fun a => a.question_id)).Nodup →
      r.graded_answers.length ≤ min uas.length env.questions.length) ∧
    (∀ res ∈ r.graded_answers, ∃ q ∈ env.questions, q.id = res.question_id) ∧
    (∀ (pre post : List SubmittedAnswer) (a : SubmittedAnswer),
      uas = pre ++ a :: post → lookupQuestion env.questions a.question_id = none →
      grade_quiz_submission env uid qid (pre ++ post) = .ok r) := by
  obtain ⟨-, -, hl, -, -, -⟩ := grade_ok_elim env uid qid uas r hr
  have hlen := gradeLoop_length env uas (r.graded_answers, r.max_score, r.earned_points) hl
  simp only at hlen
  refine ⟨hlen, ?_, ?_, ?_, ?_⟩
  · rw [hlen]
    exact List.length_filter_le _ _
  · intro hnd
    rw [hlen]
    refine le_min (List.length_filter_le _ _) ?_
    have hall : ∀ a ∈ uas.filter
        (fun a => (lookupQuestion env.questions a.question_id).isSome),
        (a.question_id).isSome = true := by
      intro a ha
      have hm := (List.mem_filter.1 ha).2
      simp only at hm
      rcases hqa : a.question_id with _ | i
      · rw [hqa] at hm
        simp [lookupQuestion] at hm
      · simp
    have hKlen : ((uas.filter
        (fun a => (lookupQuestion env.questions a.question_id).isSome)).filterMap
          (fun a => a.question_id)).length =
        (uas.filter (fun a => (lookupQuestion env.questions a.question_id).isSome)).length :=
      length_filterMap_of_isSome _ _ hall
    have hKsub : ((uas.filter
        (fun a => (lookupQuestion env.questions a.question_id).isSome)).filterMap
          (fun a => a.question_id)).Sublist (uas.filterMap (fun a => a.question_id)) :=
      (List.filter_sublist uas).filterMap _
    have hKnd := List.Nodup.sublist hKsub hnd
    have hKmem : ∀ i ∈ (uas.filter
        (fun a => (lookupQuestion env.questions a.question_id).isSome)).filterMap
          (fun a => a.question_id),
        i ∈ env.questions.map (fun q => q.id) := by
      intro i hi
      rw [List.mem_filterMap] at hi
      obtain ⟨a, ha, hai⟩ := hi
      have hm := (List.mem_filter.1 ha).2
      simp only at hm
      rw [Option.isSome_iff_exists] at hm
      obtain ⟨q, hq⟩ := hm
      have hqm := lookupQuestion_mem env.questions a.question_id q hq
      rw [List.mem_map]
      refine ⟨q, hqm.1, ?_⟩
      have hsi : some i = some q.id := by rw [← hai, hqm.2]
      exact (Option.some.inj hsi).symm
    calc (uas.filter (fun a => (lookupQuestion env.questions a.question_id).isSome)).length
        = ((uas.filter
            (fun a => (lookupQuestion env.questions a.question_id).isSome)).filterMap
              (fun a => a.question_id)).length := hKlen.symm
      _ = ((uas.filter
            (fun a => (lookupQuestion env.questions a.question_id).isSome)).filterMap
              (fun a => a.question_id)).toFinset.card :=
            (List.toFinset_card_of_nodup hKnd).symm
      _ ≤ (env.questions.map (fun q => q.id)).toFinset.card := by
            apply Finset.card_le_card
            intro i hi
            rw [List.mem_toFinset] at hi ⊢
            exact hKmem i hi
      _ ≤ (env.questions.map (fun q => q.id)).length := List.toFinset_card_le _
      _ = env.questions.length := List.length_map _ _
  · intro res hres
    obtain ⟨q, hq, hid, -, -, -⟩ :=
      gradeLoop_shape env uas (r.graded_answers, r.max_score, r.earned_points) hl res hres
    exact ⟨q, hq, hid⟩
  · intro pre post a hsplit hnone
    have hskip := gradeLoop_skip env a hnone pre post
    rw [← hr, hsplit]
    unfold grade_quiz_submission
    rw [hskip]

/-- The C4 witness submission: one known answer, one unknown-question answer. -/
def ansUnknown : List SubmittedAnswer := [⟨some 1, ("paris").toList⟩, ⟨some 99, ("x").toList⟩]

/-- The grading result of the C4 witness submission. -/
def resUnknown : GradingResult :=
  (grade_quiz_submission envParis 0 0 ansUnknown).toOption.getD default

/-- Witness for the amended C4. -/
theorem C4_witness :
    resUnknown.graded_answers.length =
      (ansUnknown.filter
        (fun a => (lookupQuestion envParis.questions a.question_id).isSome)).length ∧
    resUnknown.graded_answers.length ≤ ansUnknown.length ∧
    ((ansUnknown.filterMap (fun a => a.question_id)).Nodup →
      resUnknown.graded_answers.length ≤ min ansUnknown.length envParis.questions.length) ∧
    (∀ res ∈ resUnknown.graded_answers, ∃ q ∈ envParis.questions, q.id = res.question_id) ∧
    (∀ (pre post : List SubmittedAnswer) (a : SubmittedAnswer),
      ansUnknown = pre ++ a :: post →
      lookupQuestion envParis.questions a.question_id = none →
      grade_quiz_submission envParis 0 0 (pre ++ post) = .ok resUnknown) :=
  C4_amended_result_count envParis 0 0 ansUnknown resUnknown (by rfl)
